import Mathlib

/- Shallow embedding of `src/aiida_aurora/scheduler.py` (the Tomato scheduler
   plugin).  Python strings are Lean `String`s; the Python string methods used
   by the code (`splitlines`, `split`, `strip`, substring containment, the one
   regular expression) are re-implemented below by structural recursion on
   `List Char` so that every definition is executable and kernel-reducible.
   Exceptions are modelled with `Except PyErr`, and calls to
   `self.logger.warning` are modelled by returning a list of structured
   `Warning` values alongside the result. -/

/-- Python exceptions that the scheduler code can raise. -/
inductive PyErr
  | schedulerError (msg : String)
  | indexError
  | attributeError
  | valueError (msg : String)
  | typeError (msg : String)
  | featureNotAvailable (msg : String)
deriving DecidableEq

instance {ε α : Type} [DecidableEq ε] [DecidableEq α] : DecidableEq (Except ε α) := fun a b =>
  match a, b with
  | .ok x, .ok y =>
    match decEq x y with
    | isTrue h => isTrue (by rw [h])
    | isFalse h => isFalse (fun hh => by cases hh; exact h rfl)
  | .error x, .error y =>
    match decEq x y with
    | isTrue h => isTrue (by rw [h])
    | isFalse h => isFalse (fun hh => by cases hh; exact h rfl)
  | .ok _, .error _ => isFalse (fun hh => by cases hh)
  | .error _, .ok _ => isFalse (fun hh => by cases hh)

/-- Structured stand-ins for the `logger.warning` calls of the scheduler.
    The Python code logs formatted strings; only the data that goes into the
    message is retained here. -/
inductive Warning
  | nonEmptyStderr (stderr : String)
  | unrecognizedState (code : String) (jobId : Option String)
  | errorParsingTime (field : String) (jobId : Option String)
  | unrecognizedLine (parts : List String)
deriving DecidableEq

/-- The canonical AiiDA job states that `scheduler.py` uses
    (`aiida.schedulers.datastructures.JobState`, restricted to the members
    that appear in the file). -/
inductive JobState
  | queued
  | running
  | done
  | undetermined
deriving DecidableEq

/-- `aiida.schedulers.datastructures.JobInfo` as used by the plugin: an
    attribute dictionary whose keys are set one by one.  A key that was never
    assigned is `none`; `pipeline := some none` models the Python assignment
    `this_job.pipeline = None` (key present with value `None`). -/
structure JobInfo where
  job_id : Option String := none
  title : Option String := none
  job_state : Option JobState := none
  pipeline : Option (Option String) := none
  submission_time : Option String := none
  dispatch_time : Option String := none
  finish_time : Option String := none
  allocated_machines : Option (List String) := none
  raw_data : Option (List String) := none
deriving DecidableEq

/- ------------------------------------------------------------------ -/
/- Python string primitives, re-implemented by structural recursion.   -/
/- ------------------------------------------------------------------ -/

def isPySpace (c : Char) : Bool := c.isWhitespace

def isPyDigit (c : Char) : Bool := c.isDigit

def isAsciiAlphaNum (c : Char) : Bool := c.isAlpha || c.isDigit

/-- Split a character list at every occurrence of the character `c`
    (Python `str.split("=")` for a one-character separator: empty pieces are
    kept, and the result is never empty). -/
def splitOnChar (c : Char) : List Char → List (List Char)
  | [] => [[]]
  | x :: xs =>
    if x = c then [] :: splitOnChar c xs
    else
      match splitOnChar c xs with
      | [] => [[x]]
      | y :: ys => (x :: y) :: ys

def strSplitChar (c : Char) (s : String) : List String :=
  (splitOnChar c s.toList).map String.mk

/-- Python `str.strip()`. -/
def trimChars (l : List Char) : List Char :=
  ((l.dropWhile isPySpace).reverse.dropWhile isPySpace).reverse

def strTrim (s : String) : String := String.mk (trimChars s.toList)

/-- Python `str.split()` with no argument: tokenize on runs of whitespace,
    dropping empty tokens.  `acc` holds the (reversed) current token. -/
def wsTokensGo (acc : List Char) : List Char → List (List Char)
  | [] => if acc = [] then [] else [acc.reverse]
  | c :: cs =>
    if isPySpace c then
      if acc = [] then wsTokensGo [] cs else acc.reverse :: wsTokensGo [] cs
    else wsTokensGo (c :: acc) cs

def pySplitWs (s : String) : List String :=
  (wsTokensGo [] s.toList).map String.mk

/-- Python `str.splitlines()`, simplified to the newline character, which is
    the only line boundary occurring in scheduler output: split on every
    newline and drop the final empty piece produced by a trailing newline. -/
def splitlinesPy (s : String) : List String :=
  if s = "" then []
  else
    let parts := strSplitChar (Char.ofNat 10) s
    if parts.getLast? = some "" then parts.dropLast else parts

/-- `a.isPrefixOf b` on character lists. -/
def isPrefixChars : List Char → List Char → Bool
  | [], _ => true
  | _ :: _, [] => false
  | a :: as, b :: bs => a = b && isPrefixChars as bs

def isInfixChars (pat : List Char) : List Char → Bool
  | [] => pat = []
  | x :: xs => isPrefixChars pat (x :: xs) || isInfixChars pat xs

/-- Python substring containment `sub in s`. -/
def pyIn (sub s : String) : Bool := isInfixChars sub.toList s.toList

/-- Python `sep.join(pieces)`. -/
def joinSep (sep : String) : List String → String
  | [] => ""
  | [x] => x
  | x :: y :: xs => x ++ sep ++ joinSep sep (y :: xs)

/-- The single-quote character, written via its code point. -/
def squoteC : Char := Char.ofNat 39

/-- The double-quote character, written via its code point. -/
def dquoteC : Char := Char.ofNat 34

/-- `aiida.common.escaping.escape_for_bash` (external library helper used by
    the plugin): wrap in single quotes, replacing every single quote by the
    five-character sequence quote, double quote, quote, double quote, quote. -/
def escapeQuoteChars : List Char → List Char
  | [] => []
  | c :: cs =>
    if c = squoteC then squoteC :: dquoteC :: squoteC :: dquoteC :: squoteC :: escapeQuoteChars cs
    else c :: escapeQuoteChars cs

def escape_for_bash (s : String) : String :=
  String.mk (squoteC :: escapeQuoteChars s.toList ++ [squoteC])

/- ------------------------------------------------------------------ -/
/- `datetime.datetime.fromisoformat`, simplified.                      -/
/- ------------------------------------------------------------------ -/

/-- Check a `HH:MM[:SS[.ffffff]]` time suffix. -/
def isoTimeChars : List Char → Bool
  | h1 :: h2 :: c1 :: m1 :: m2 :: rest =>
    isPyDigit h1 && isPyDigit h2 && (c1 = Char.ofNat 58) && isPyDigit m1 && isPyDigit m2 &&
      (match rest with
       | [] => true
       | c2 :: s1 :: s2 :: rest2 =>
         (c2 = Char.ofNat 58) && isPyDigit s1 && isPyDigit s2 &&
           (match rest2 with
            | [] => true
            | d :: fs => (d = Char.ofNat 46) && fs ≠ [] && fs.all isPyDigit)
       | _ => false)
  | _ => false

/-- `datetime.datetime.fromisoformat` (Python standard library, external to
    the plugin), modelled as a validity check on a `YYYY-MM-DD[*HH:MM...]`
    shape; a valid timestamp string is kept verbatim as the parsed value,
    `none` models the `ValueError` raised on malformed input.  (The stdlib
    also range-checks the fields; that refinement is irrelevant to every
    claim, which never inspects timestamp values.) -/
def fromisoformat? (s : String) : Option String :=
  match s.toList with
  | y1 :: y2 :: y3 :: y4 :: d1 :: m1 :: m2 :: d2 :: a1 :: a2 :: rest =>
    if isPyDigit y1 && isPyDigit y2 && isPyDigit y3 && isPyDigit y4 &&
        (d1 = Char.ofNat 45) && isPyDigit m1 && isPyDigit m2 &&
        (d2 = Char.ofNat 45) && isPyDigit a1 && isPyDigit a2 &&
        (match rest with
         | [] => true
         | _ :: t => isoTimeChars t) then some s
    else none
  | _ => none

/- ------------------------------------------------------------------ -/
/- The vendor status table (`_MAP_STATUS_TOMATO`).                     -/
/- ------------------------------------------------------------------ -/

/-- `_MAP_STATUS_TOMATO`: the fixed dict from tomato status codes to
    `JobState`s; `none` models a `KeyError` on lookup. -/
def map_status_tomato (code : String) : Option JobState :=
  if code = "q" then some JobState.queued
  else if code = "qw" then some JobState.queued
  else if code = "r" then some JobState.running
  else if code = "c" then some JobState.done
  else if code = "ce" then some JobState.done
  else if code = "cd" then some JobState.done
  else none

/-- The `try MAP[code] except KeyError: warn; UNDETERMINED` pattern used at
    both lookup sites of `_parse_joblist_output` (lines 273-279 and 310-317):
    total state resolution with the warning that the code logs. -/
def resolve_status (code : String) (jid : Option String) : JobState × List Warning :=
  match map_status_tomato code with
  | some st => (st, [])
  | none => (JobState.undetermined, [Warning.unrecognizedState code jid])

/-- The `KETCHUP` class attribute. -/
def KETCHUP : String := "ketchup"

/- ------------------------------------------------------------------ -/
/- `TomatoScheduler._parse_joblist_output` (lines 243-352).            -/
/- ------------------------------------------------------------------ -/

/-- Record helper: `JobInfo()` followed immediately by `this_job.job_id = v`. -/
def freshJob (v : String) : JobInfo := { job_id := some v }

/-- Python truthiness of a `JobInfo` attribute dictionary: non-empty, i.e.
    at least one key has been assigned (`this_job.pipeline = None` also counts,
    hence `pipeline.isSome` rather than a value test). -/
def jobInfoTruthy (j : JobInfo) : Bool :=
  j.job_id.isSome || j.title.isSome || j.job_state.isSome || j.pipeline.isSome ||
    j.submission_time.isSome || j.dispatch_time.isSome || j.finish_time.isSome ||
    j.allocated_machines.isSome || j.raw_data.isSome

/-- Python truthiness of the `this_job` variable (`None` or a `JobInfo`). -/
def optJobTruthy : Option JobInfo → Bool
  | none => false
  | some j => jobInfoTruthy j

/-- Attribute access / assignment on `this_job` when it may be `None`:
    raises `AttributeError` on `None`. -/
def requireJob : Option JobInfo → Except PyErr JobInfo
  | none => Except.error PyErr.attributeError
  | some j => Except.ok j

/-- Python indexing `l[i]` for a non-negative index: `IndexError` when out of
    range. -/
def listGet {α : Type} (l : List α) (i : Nat) : Except PyErr α :=
  match l.get? i with
  | some x => Except.ok x
  | none => Except.error PyErr.indexError

/-- One data row of the tabular `ketchup status queue` listing
    (lines 267-294): whitespace-tokenized into `job`, then
    `job_id = job[0]`, `title = job[1]`, status via the fallback lookup, and
    3 fields mean `pipeline = None`, 4 mean `pipeline = job[3]`, anything
    larger is the `ValueError` of line 286; fewer than 3 fields hit a plain
    `IndexError` (only `KeyError` is caught around `job[2]`). -/
def parse_queue_row (line : String) : Except PyErr (JobInfo × List Warning) :=
  let job := pySplitWs line
  match listGet job 0 with
  | Except.error e => Except.error e
  | Except.ok j0 =>
    match listGet job 1 with
    | Except.error e => Except.error e
    | Except.ok j1 =>
      match listGet job 2 with
      | Except.error e => Except.error e
      | Except.ok j2 =>
        let r := resolve_status j2 (some j0)
        if job.length = 3 then
          Except.ok ({ job_id := some j0, title := some j1, job_state := some r.1,
                       pipeline := some none, raw_data := some job }, r.2)
        else if job.length = 4 then
          match listGet job 3 with
          | Except.error e => Except.error e
          | Except.ok j3 =>
            Except.ok ({ job_id := some j0, title := some j1, job_state := some r.1,
                         pipeline := some (some j3), raw_data := some job }, r.2)
        else
          Except.error (PyErr.valueError
            ("More than 4 columns returned by ketchup status queue: " ++ joinSep " " job))

/-- The loop over `jobdata_raw[2:]` of the tabular branch, in input order;
    the first raised exception aborts the whole call. -/
def parse_queue_rows : List String → Except PyErr (List (Option JobInfo) × List Warning)
  | [] => Except.ok ([], [])
  | line :: rest =>
    match parse_queue_row line with
    | Except.error e => Except.error e
    | Except.ok (j, ws) =>
      match parse_queue_rows rest with
      | Except.error e => Except.error e
      | Except.ok (js, ws2) => Except.ok (some j :: js, ws ++ ws2)

/-- The `try: setattr timestamp except (ValueError, IndexError): warn` pattern
    of the three timestamp keys (lines 318-342).  When `this_job` is `None`
    every path of the Python code raises `AttributeError` (either at the
    assignment or while formatting the warning), so the `None` check may be
    done first without changing observable behaviour. -/
def timeStep (this_job : Option JobInfo) (line : List String) (fieldName : String)
    (setField : JobInfo → String → JobInfo) :
    Except PyErr (Option JobInfo × List (Option JobInfo) × List Warning) :=
  match requireJob this_job with
  | Except.error e => Except.error e
  | Except.ok j =>
    match line.get? 1 with
    | none => Except.ok (some j, [], [Warning.errorParsingTime fieldName j.job_id])
    | some v =>
      match fromisoformat? v with
      | some t => Except.ok (some (setField j t), [], [])
      | none => Except.ok (some j, [], [Warning.errorParsingTime fieldName j.job_id])

/-- One line of the detailed `ketchup status jobid` branch (lines 301-348):
    split at every equals sign, strip every part, then dispatch on substring
    containment in the key (the part before the first equals sign).  Returns
    the new `this_job`, the records appended to `job_list` by this line, and
    the warnings logged.  (On the `jobid` key the Python code appends the
    previous record before reading `line[1]`; when `line[1]` raises
    `IndexError` the whole call aborts either way, so the order is not
    observable.) -/
def detail_step (this_job : Option JobInfo) (raw_line : String) :
    Except PyErr (Option JobInfo × List (Option JobInfo) × List Warning) :=
  let line := (strSplitChar (Char.ofNat 61) raw_line).map strTrim
  let key := line.headD ""
  if pyIn "jobid" key then
    match listGet line 1 with
    | Except.error e => Except.error e
    | Except.ok v =>
      Except.ok (some (freshJob v), if optJobTruthy this_job then [this_job] else [], [])
  else if pyIn "jobname" key then
    match listGet line 1 with
    | Except.error e => Except.error e
    | Except.ok v =>
      match requireJob this_job with
      | Except.error e => Except.error e
      | Except.ok j => Except.ok (some { j with title := some v }, [], [])
  else if pyIn "status" key then
    match listGet line 1 with
    | Except.error e => Except.error e
    | Except.ok v =>
      match requireJob this_job with
      | Except.error e => Except.error e
      | Except.ok j =>
        let r := resolve_status v j.job_id
        Except.ok (some { j with job_state := some r.1 }, [], r.2)
  else if pyIn "submitted at" key then
    timeStep this_job line "submission_time" (fun j t => { j with submission_time := some t })
  else if pyIn "executed at" key then
    timeStep this_job line "dispatch_time" (fun j t => { j with dispatch_time := some t })
  else if pyIn "completed at" key then
    timeStep this_job line "finished_time" (fun j t => { j with finish_time := some t })
  else if pyIn "with pipeline" key then
    match listGet line 1 with
    | Except.error e => Except.error e
    | Except.ok v =>
      match requireJob this_job with
      | Except.error e => Except.error e
      | Except.ok j => Except.ok (some { j with allocated_machines := some [v] }, [], [])
  else if pyIn "with PID" key then
    Except.ok (this_job, [], [])
  else
    Except.ok (this_job, [], [Warning.unrecognizedLine line])

/-- The loop of the detailed branch over all of `jobdata_raw`. -/
def parse_detail_lines (this_job : Option JobInfo) :
    List String → Except PyErr (Option JobInfo × List (Option JobInfo) × List Warning)
  | [] => Except.ok (this_job, [], [])
  | l :: rest =>
    match detail_step this_job l with
    | Except.error e => Except.error e
    | Except.ok (tj, emitted, ws) =>
      match parse_detail_lines tj rest with
      | Except.error e => Except.error e
      | Except.ok (tj2, out, ws2) => Except.ok (tj2, emitted ++ out, ws ++ ws2)

/-- The detailed branch (lines 298-350): run the loop starting from
    `this_job = None`, then `job_list.append(this_job)` unconditionally —
    the final element may therefore be `None`. -/
def parse_detailed (lines : List String) :
    Except PyErr (List (Option JobInfo) × List Warning) :=
  match parse_detail_lines none lines with
  | Except.error e => Except.error e
  | Except.ok (tj, out, ws) => Except.ok (out ++ [tj], ws)

/-- The tabular branch (lines 264-296): rows only when there are more than
    two non-empty lines, otherwise the queue is empty. -/
def queue_branch (raw : List String) (ws0 : List Warning) :
    Except PyErr (List (Option JobInfo) × List Warning) :=
  if raw.length > 2 then
    match parse_queue_rows (raw.drop 2) with
    | Except.error e => Except.error e
    | Except.ok (js, ws) => Except.ok (js, ws0 ++ ws)
  else Except.ok ([], ws0)

def detail_branch (raw : List String) (ws0 : List Warning) :
    Except PyErr (List (Option JobInfo) × List Warning) :=
  match parse_detailed raw with
  | Except.error e => Except.error e
  | Except.ok (js, ws) => Except.ok (js, ws0 ++ ws)

/-- Line 254-257: a warning when stderr is non-blank despite exit code 0. -/
def stderr_warnings (stderr : String) : List Warning :=
  if strTrim stderr = "" then [] else [Warning.nonEmptyStderr (strTrim stderr)]

/-- Line 259: `jobdata_raw = [l for l in stdout.splitlines() if l]`. -/
def nonempty_lines (stdout : String) : List String :=
  (splitlinesPy stdout).filter (fun l => l ≠ "")

/-- `TomatoScheduler._parse_joblist_output`.  `jobdata_raw[1]` is read
    unconditionally (line 264: `if "=========" in jobdata_raw[1]`), before any
    branch is chosen; the detailed branch is guarded by
    `"jobid =" in jobdata_raw[0]` (line 298), which is in range whenever index
    1 was. -/
def parse_joblist_output (retval : Int) (stdout stderr : String) :
    Except PyErr (List (Option JobInfo) × List Warning) :=
  if retval ≠ 0 then
    Except.error (PyErr.schedulerError ("ketchup returned exit code " ++ toString retval))
  else
    let ws0 := stderr_warnings stderr
    let raw := nonempty_lines stdout
    match raw.get? 1 with
    | none => Except.error PyErr.indexError
    | some l1 =>
      if pyIn "=========" l1 then queue_branch raw ws0
      else if pyIn "jobid =" (raw.headD "") then detail_branch raw ws0
      else Except.ok ([], ws0)

/- ------------------------------------------------------------------ -/
/- `TomatoScheduler._parse_submit_output` (lines 354-385) and the      -/
/- regular expression `_TOMATO_SUBMITTED_REGEXP` (line 36).            -/
/- ------------------------------------------------------------------ -/

/-- Match `jobid\s+=\s+(?P<jobid>\d+)` at the start of a character list,
    returning the (greedy maximal) captured digit run. -/
def matchJobidEq : List Char → Option String
  | 'j' :: 'o' :: 'b' :: 'i' :: 'd' :: rest =>
    let ws1 := rest.takeWhile isPySpace
    let r1 := rest.drop ws1.length
    if ws1 = [] then none
    else
      match r1 with
      | c :: r2 =>
        if c = Char.ofNat 61 then
          let ws2 := r2.takeWhile isPySpace
          let r3 := r2.drop ws2.length
          if ws2 = [] then none
          else
            let ds := r3.takeWhile isPyDigit
            if ds = [] then none else some (String.mk ds)
        else none
      | [] => none
  | _ => none

/-- Does `A` match the optional group `(.*:\s*)?` when non-empty, i.e. does
    some colon in `A` have only whitespace after it? -/
def colonPrefixOk (A : List Char) : Bool :=
  match A.reverse.dropWhile isPySpace with
  | c :: _ => c = Char.ofNat 58
  | [] => false

/-- Backtracking search over the split points `i` between the optional
    `(.*:\s*)?` group and the `jobid` part, largest `i` first (the order the
    greedy Python engine resolves the pattern in); `i = 0` — the group absent —
    is tried last. -/
def submittedCaptureAux (cs : List Char) : List Nat → Option String
  | [] => none
  | i :: rest =>
    if i = 0 || colonPrefixOk (cs.take i) then
      match matchJobidEq (cs.drop i) with
      | some d => some d
      | none => submittedCaptureAux cs rest
    else submittedCaptureAux cs rest

/-- `_TOMATO_SUBMITTED_REGEXP.match(line)`: the pattern
    `(.*:\s*)?(jobid\s+=)\s+(?P<jobid>\d+)` anchored at the start of the line,
    returning the `jobid` group on success. -/
def submittedCapture (s : String) : Option String :=
  let cs := s.toList
  submittedCaptureAux cs ((List.range (cs.length + 1)).reverse)

/-- The scan loop of `_parse_submit_output`: first matching line wins. -/
def find_submit_id : List String → Option String
  | [] => none
  | l :: rest =>
    match submittedCapture (strTrim l) with
    | some d => some d
    | none => find_submit_id rest

/-- `TomatoScheduler._parse_submit_output`.  (The warning logged on non-empty
    stderr does not influence the returned value and is omitted here.) -/
def parse_submit_output (retval : Int) (stdout stderr : String) : Except PyErr String :=
  if retval ≠ 0 then
    Except.error (PyErr.schedulerError
      ("Error during submission, retval=" ++ toString retval ++ "; stdout=" ++ stdout ++
       "; stderr=" ++ stderr))
  else
    match find_submit_id (strSplitChar (Char.ofNat 10) stdout) with
    | some d => Except.ok d
    | none => Except.error (PyErr.schedulerError
        "Error during submission, could not retrieve the jobID from ketchup output; see log for more info.")

/- ------------------------------------------------------------------ -/
/- `TomatoScheduler._get_joblist_command` (lines 98-121).              -/
/- ------------------------------------------------------------------ -/

/-- The possible Python values of the `jobs` argument: absent (`None`), a
    string, an iterable of ids (modelled as a list of strings), or any other
    object — non-string and non-iterable — of which only the truthiness is
    relevant to the code. -/
inductive PyJobs
  | none
  | str (s : String)
  | list (l : List String)
  | other (truthy : Bool)
deriving DecidableEq

/-- Python truthiness of the `jobs` argument (`if jobs:`). -/
def pyJobsTruthy : PyJobs → Bool
  | PyJobs.none => false
  | PyJobs.str s => s ≠ ""
  | PyJobs.list l => l ≠ []
  | PyJobs.other t => t

/-- Python truthiness of an optional string (`if user:`, `if job_tmpl.job_name:`). -/
def pyStrOptTruthy : Option String → Bool
  | none => false
  | some s => s ≠ ""

/-- `TomatoScheduler._get_joblist_command`: truthiness of `user` is checked
    first, then truthiness of `jobs`; a truthy string goes through
    `escape_for_bash`, a truthy iterable is joined with the bash
    success-conjunction (unescaped), and iterating any other truthy object
    raises the `TypeError` of lines 113-116. -/
def get_joblist_command (jobs : PyJobs) (user : Option String) : Except PyErr String :=
  if pyStrOptTruthy user then
    Except.error (PyErr.featureNotAvailable "Cannot query by user")
  else if pyJobsTruthy jobs then
    match jobs with
    | PyJobs.str s => Except.ok (KETCHUP ++ " status " ++ escape_for_bash s)
    | PyJobs.list l => Except.ok (joinSep " && " (l.map (fun j => KETCHUP ++ " status " ++ j)))
    | _ => Except.error (PyErr.typeError
        ("If provided, the " ++ String.mk [squoteC] ++ "jobs" ++ String.mk [squoteC] ++
         " variable must be a string or an iterable of strings"))
  else Except.ok (KETCHUP ++ " status queue")

/- ------------------------------------------------------------------ -/
/- `TomatoScheduler._get_submit_script_header` (lines 131-164).        -/
/- ------------------------------------------------------------------ -/

/-- The slice of `aiida.schedulers.JobTemplate` the header generator reads. -/
structure JobTemplate where
  shell_type : String
  job_name : Option String
deriving DecidableEq

/-- The character class kept by `re.sub(r"[^a-zA-Z0-9_.-]+", "", job_name)`. -/
def isTitleChar (c : Char) : Bool :=
  isAsciiAlphaNum c || c = '_' || c = '.' || c = '-'

/-- Prefix a `j` when the sanitized name is empty or does not start with an
    ASCII letter or digit (lines 147-152). -/
def prefixIfNeeded : List Char → List Char
  | [] => ['j']
  | c :: cs => if isAsciiAlphaNum c then c :: cs else 'j' :: c :: cs

/-- The job title computed by `_get_submit_script_header`: keep only the
    allowed characters, guarantee a leading letter or digit, truncate to 128
    characters. -/
def sanitize_title_chars (name : String) : List Char :=
  (prefixIfNeeded (name.toList.filter isTitleChar)).take 128

def sanitize_job_title (name : String) : String :=
  String.mk (sanitize_title_chars name)

/-- `TomatoScheduler._get_submit_script_header`.  (The method also stores
    `job_tmpl.shell_type` into the class attribute `_shell_cmd`; that shared
    mutable state is not read by this function and is outside every claim.) -/
def get_submit_script_header (job_tmpl : JobTemplate) : String :=
  if pyStrOptTruthy job_tmpl.job_name then
    let job_title := sanitize_job_title (job_tmpl.job_name.getD "")
    if job_tmpl.shell_type = "powershell" then
      "$JOB_TITLE=" ++ String.mk [squoteC] ++ job_title ++ String.mk [squoteC]
    else
      "JOB_TITLE=" ++ String.mk [squoteC] ++ job_title ++ String.mk [squoteC]
  else ""

/- ------------------------------------------------------------------ -/
/- Claim-side definitions (what the spec sentences literally say),     -/
/- used only to state counterexamples against the code.                -/
/- ------------------------------------------------------------------ -/

/-- Claim C2 as written: tabular when the line at index 2 (0-indexed) of the
    non-empty-line list holds the separator row, otherwise detailed when the
    line at index 1 holds the token `jobid =`; `none` when neither layout is
    indicated. -/
def claimed_layout (raw : List String) : Option Bool :=
  if pyIn "=========" (raw.getD 2 "") then some true
  else if pyIn "jobid =" (raw.getD 1 "") then some false
  else none

/-- Claim C6 as written: the key of a detailed line is the trimmed text before
    the FIRST equals sign. -/
def firstEqKey (line : String) : String :=
  strTrim ((strSplitChar (Char.ofNat 61) line).headD "")

/-- Claim C6 as written: the value of a detailed line is the trimmed text
    after the FIRST equals sign (`none` when the line has no equals sign). -/
def firstEqVal (line : String) : Option String :=
  match strSplitChar (Char.ofNat 61) line with
  | [] => none
  | [_] => none
  | _ :: rest => some (strTrim (joinSep "=" rest))

/- ------------------------------------------------------------------ -/
/- Helper lemmas.                                                      -/
/- ------------------------------------------------------------------ -/

theorem requireJob_ok {st : Option JobInfo} {j : JobInfo}
    (h : requireJob st = Except.ok j) : st = some j := by
  cases st with
  | none => cases h
  | some x => cases h; rfl

theorem listGet_ok {α : Type} {l : List α} {i : Nat} {x : α}
    (h : listGet l i = Except.ok x) : l.get? i = some x := by
  unfold listGet at h
  cases hg : l.get? i with
  | none => rw [hg] at h; cases h
  | some y => rw [hg] at h; cases h; rfl

/-- The property that a possibly-`None` record, when an actual record, has its
    `job_id` key assigned. -/
def jobIdSet (oj : Option JobInfo) : Prop :=
  ∀ j : JobInfo, oj = some j → j.job_id.isSome = true

/- ------------------------------------------------------------------ -/
/- Claim theorems.                                                     -/
/- ------------------------------------------------------------------ -/

/-- Claim C1: the vendor-status mapping is total and never fails — each of
    the six table codes resolves to its fixed canonical state with no warning,
    and every other status string resolves to `UNDETERMINED` with a logged
    warning instead of raising; the second conjunct shows the fallback acting
    through the whole job-list parser on the unknown code `zz`. -/
theorem C1_state_mapping :
    (∀ jid : Option String,
       resolve_status "q" jid = (JobState.queued, []) ∧
       resolve_status "qw" jid = (JobState.queued, []) ∧
       resolve_status "r" jid = (JobState.running, []) ∧
       resolve_status "c" jid = (JobState.done, []) ∧
       resolve_status "ce" jid = (JobState.done, []) ∧
       resolve_status "cd" jid = (JobState.done, []) ∧
       ∀ code : String, code ∉ (["q", "qw", "r", "c", "ce", "cd"] : List String) →
         resolve_status code jid = (JobState.undetermined, [Warning.unrecognizedState code jid])) ∧
    parse_joblist_output 0 "h\n=========\n1 t zz" "" =
      Except.ok ([some { job_id := some "1", title := some "t",
                         job_state := some JobState.undetermined, pipeline := some none,
                         raw_data := some ["1", "t", "zz"] }],
                 [Warning.unrecognizedState "zz" (some "1")]) := by
  constructor
  · intro jid
    refine ⟨rfl, rfl, rfl, rfl, rfl, rfl, ?_⟩
    intro code hc
    simp only [List.mem_cons, List.not_mem_nil, or_false, not_or] at hc
    obtain ⟨h1, h2, h3, h4, h5, h6⟩ := hc
    simp [resolve_status, map_status_tomato, h1, h2, h3, h4, h5, h6]
  · decide

/-- Witness for claim C1: the unknown vendor code `zz` resolves to
    `UNDETERMINED` with a warning. -/
theorem C1_state_mapping_witness :
    resolve_status "zz" (some "1") =
      (JobState.undetermined, [Warning.unrecognizedState "zz" (some "1")]) :=
  (C1_state_mapping.1 (some "1")).2.2.2.2.2.2 "zz" (by decide)

/-- Claim C2 counterexample: on standard tabular output the separator row sits
    at index 1 (0-indexed) and the claimed rule — separator at index 2,
    `jobid =` at index 1 — selects NO layout, yet the code parses the input as
    the tabular queue listing and returns a record. -/
theorem C2_dispatch_counterexample :
    claimed_layout (nonempty_lines "h\n=========\n1 t r") = none ∧
    parse_joblist_output 0 "h\n=========\n1 t r" "" =
      Except.ok ([some { job_id := some "1", title := some "t",
                         job_state := some JobState.running, pipeline := some none,
                         raw_data := some ["1", "t", "r"] }], []) := by
  constructor
  · decide
  · decide

/-- Claim C2 amended: for retcode 0 the parser dispatches on the content of
    line 1 (0-indexed) of the non-empty-line list — a row of `=` there selects
    the tabular branch; otherwise the token `jobid =` in line 0 (0-indexed)
    selects the detailed branch; otherwise the result is empty. -/
theorem C2_dispatch_amended :
    ∀ stdout stderr l1, (nonempty_lines stdout).get? 1 = some l1 →
      parse_joblist_output 0 stdout stderr =
        (if pyIn "=========" l1 then
           queue_branch (nonempty_lines stdout) (stderr_warnings stderr)
         else if pyIn "jobid =" ((nonempty_lines stdout).headD "") then
           detail_branch (nonempty_lines stdout) (stderr_warnings stderr)
         else Except.ok ([], stderr_warnings stderr)) := by
  intro stdout stderr l1 h
  rw [List.get?_eq_getElem?] at h
  simp [parse_joblist_output, h]

/-- Witness for the amended claim C2 at a concrete tabular input. -/
theorem C2_dispatch_amended_witness :
    parse_joblist_output 0 "h\n=========\n1 t r" "" =
      (if pyIn "=========" "=========" then
         queue_branch (nonempty_lines "h\n=========\n1 t r") (stderr_warnings "")
       else if pyIn "jobid =" ((nonempty_lines "h\n=========\n1 t r").headD "") then
         detail_branch (nonempty_lines "h\n=========\n1 t r") (stderr_warnings "")
       else Except.ok ([], stderr_warnings "")) :=
  C2_dispatch_amended "h\n=========\n1 t r" "" "=========" (by decide)

/-- Claim C10: with retcode 0 and fewer than two non-empty lines of stdout the
    parser reads `jobdata_raw[1]` unconditionally and the call fails with an
    `IndexError` before any layout is chosen. -/
theorem C10_short_output_index_error :
    ∀ stdout stderr : String, (nonempty_lines stdout).length < 2 →
      parse_joblist_output 0 stdout stderr = Except.error PyErr.indexError := by
  intro stdout stderr h
  have hg : (nonempty_lines stdout).get? 1 = none := by
    rw [List.get?_eq_none]
    omega
  rw [List.get?_eq_getElem?] at hg
  simp [parse_joblist_output, hg]

/-- Witness for claim C10: completely empty stdout. -/
theorem C10_short_output_index_error_witness :
    parse_joblist_output 0 "" "" = Except.error PyErr.indexError :=
  C10_short_output_index_error "" "" (by decide)

/-- Claim C3 counterexample: a detailed report whose block has no `status`
    line yields a record whose `state` is absent — the parser returns it with
    `job_state = none` instead of falling back to `UNDETERMINED`. -/
theorem C3_record_invariant_counterexample :
    parse_joblist_output 0 "jobid = 5\njobname = x" "" =
      Except.ok ([some { job_id := some "5", title := some "x" }], []) ∧
    ({ job_id := some "5", title := some "x" : JobInfo }).job_state = none := by
  constructor
  · decide
  · rfl

theorem parse_queue_row_good {line : String} {j : JobInfo} {ws : List Warning}
    (h : parse_queue_row line = Except.ok (j, ws)) :
    j.job_id.isSome = true ∧ j.job_state.isSome = true := by
  unfold parse_queue_row at h
  simp only [] at h
  cases h0 : listGet (pySplitWs line) 0 with
  | error e => rw [h0] at h; simp at h
  | ok j0 =>
    rw [h0] at h
    simp only [] at h
    cases h1 : listGet (pySplitWs line) 1 with
    | error e => rw [h1] at h; simp at h
    | ok j1 =>
      rw [h1] at h
      simp only [] at h
      cases h2 : listGet (pySplitWs line) 2 with
      | error e => rw [h2] at h; simp at h
      | ok j2 =>
        rw [h2] at h
        simp only [] at h
        split at h
        · simp only [Except.ok.injEq, Prod.mk.injEq] at h
          obtain ⟨hj, _⟩ := h
          subst hj
          exact ⟨rfl, rfl⟩
        · split at h
          · cases h3 : listGet (pySplitWs line) 3 with
            | error e => rw [h3] at h; simp at h
            | ok j3 =>
              rw [h3] at h
              simp only [Except.ok.injEq, Prod.mk.injEq] at h
              obtain ⟨hj, _⟩ := h
              subst hj
              exact ⟨rfl, rfl⟩
          · simp at h

theorem parse_queue_rows_good :
    ∀ rows js ws, parse_queue_rows rows = Except.ok (js, ws) →
      ∀ oj ∈ js, ∃ j, oj = some j ∧ j.job_id.isSome = true ∧ j.job_state.isSome = true := by
  intro rows
  induction rows with
  | nil =>
    intro js ws h oj hm
    unfold parse_queue_rows at h
    simp only [Except.ok.injEq, Prod.mk.injEq] at h
    obtain ⟨hj, _⟩ := h
    subst hj
    simp at hm
  | cons line rest ih =>
    intro js ws h oj hm
    unfold parse_queue_rows at h
    cases hrow : parse_queue_row line with
    | error e => rw [hrow] at h; simp at h
    | ok p =>
      obtain ⟨j1, ws1⟩ := p
      rw [hrow] at h
      simp only [] at h
      cases hrest : parse_queue_rows rest with
      | error e => rw [hrest] at h; simp at h
      | ok q =>
        obtain ⟨js2, ws2⟩ := q
        rw [hrest] at h
        simp only [Except.ok.injEq, Prod.mk.injEq] at h
        obtain ⟨hj, _⟩ := h
        subst hj
        rcases List.mem_cons.mp hm with hh | hh
        · exact ⟨j1, hh, parse_queue_row_good hrow⟩
        · exact ih js2 ws2 hrest oj hh

theorem timeStep_inv {st : Option JobInfo} {line : List String} {fn : String}
    {f : JobInfo → String → JobInfo} {tj : Option JobInfo}
    {em : List (Option JobInfo)} {ws : List Warning}
    (h : timeStep st line fn f = Except.ok (tj, em, ws))
    (hf : ∀ j t, (f j t).job_id = j.job_id) (hst : jobIdSet st) :
    jobIdSet tj ∧ em = [] := by
  unfold timeStep at h
  cases hr : requireJob st with
  | error e => rw [hr] at h; simp at h
  | ok j =>
    rw [hr] at h
    simp only [] at h
    have hid : j.job_id.isSome = true := hst j (requireJob_ok hr)
    cases hl : line.get? 1 with
    | none =>
      rw [hl] at h
      simp only [Except.ok.injEq, Prod.mk.injEq] at h
      obtain ⟨h1, h2, _⟩ := h
      subst h1; subst h2
      exact ⟨fun x hx => by cases hx; exact hid, rfl⟩
    | some v =>
      rw [hl] at h
      simp only [] at h
      cases hiso : fromisoformat? v with
      | none =>
        rw [hiso] at h
        simp only [Except.ok.injEq, Prod.mk.injEq] at h
        obtain ⟨h1, h2, _⟩ := h
        subst h1; subst h2
        exact ⟨fun x hx => by cases hx; exact hid, rfl⟩
      | some t =>
        rw [hiso] at h
        simp only [Except.ok.injEq, Prod.mk.injEq] at h
        obtain ⟨h1, h2, _⟩ := h
        subst h1; subst h2
        refine ⟨fun x hx => ?_, rfl⟩
        cases hx
        rw [Option.isSome_iff_exists] at hid ⊢
        obtain ⟨a, ha⟩ := hid
        exact ⟨a, by rw [hf, ha]⟩

theorem detail_step_inv {st : Option JobInfo} {l : String} {tj : Option JobInfo}
    {em : List (Option JobInfo)} {ws : List Warning}
    (h : detail_step st l = Except.ok (tj, em, ws)) (hst : jobIdSet st) :
    jobIdSet tj ∧ ∀ oj ∈ em, jobIdSet oj := by
  unfold detail_step at h
  simp only [] at h
  split at h
  · -- jobid key
    cases hg : listGet ((strSplitChar (Char.ofNat 61) l).map strTrim) 1 with
    | error e => rw [hg] at h; simp at h
    | ok v =>
      rw [hg] at h
      simp only [Except.ok.injEq, Prod.mk.injEq] at h
      obtain ⟨h1, h2, _⟩ := h
      subst h1; subst h2
      constructor
      · intro x hx; cases hx; rfl
      · intro oj hm
        split at hm
        · rcases List.mem_singleton.mp hm with rfl
          exact hst
        · simp at hm
  · split at h
    · -- jobname key
      cases hg : listGet ((strSplitChar (Char.ofNat 61) l).map strTrim) 1 with
      | error e => rw [hg] at h; simp at h
      | ok v =>
        rw [hg] at h
        simp only [] at h
        cases hr : requireJob st with
        | error e => rw [hr] at h; simp at h
        | ok j =>
          rw [hr] at h
          simp only [Except.ok.injEq, Prod.mk.injEq] at h
          obtain ⟨h1, h2, _⟩ := h
          subst h1; subst h2
          have hid := hst j (requireJob_ok hr)
          exact ⟨fun x hx => by cases hx; exact hid, by simp⟩
    · split at h
      · -- status key
        cases hg : listGet ((strSplitChar (Char.ofNat 61) l).map strTrim) 1 with
        | error e => rw [hg] at h; simp at h
        | ok v =>
          rw [hg] at h
          simp only [] at h
          cases hr : requireJob st with
          | error e => rw [hr] at h; simp at h
          | ok j =>
            rw [hr] at h
            simp only [Except.ok.injEq, Prod.mk.injEq] at h
            obtain ⟨h1, h2, _⟩ := h
            subst h1; subst h2
            have hid := hst j (requireJob_ok hr)
            exact ⟨fun x hx => by cases hx; exact hid, by simp⟩
      · split at h
        · -- submitted at
          obtain ⟨h1, h2⟩ := timeStep_inv h (fun j t => rfl) hst
          exact ⟨h1, by rw [h2]; simp⟩
        · split at h
          · -- executed at
            obtain ⟨h1, h2⟩ := timeStep_inv h (fun j t => rfl) hst
            exact ⟨h1, by rw [h2]; simp⟩
          · split at h
            · -- completed at
              obtain ⟨h1, h2⟩ := timeStep_inv h (fun j t => rfl) hst
              exact ⟨h1, by rw [h2]; simp⟩
            · split at h
              · -- with pipeline
                cases hg : listGet ((strSplitChar (Char.ofNat 61) l).map strTrim) 1 with
                | error e => rw [hg] at h; simp at h
                | ok v =>
                  rw [hg] at h
                  simp only [] at h
                  cases hr : requireJob st with
                  | error e => rw [hr] at h; simp at h
                  | ok j =>
                    rw [hr] at h
                    simp only [Except.ok.injEq, Prod.mk.injEq] at h
                    obtain ⟨h1, h2, _⟩ := h
                    subst h1; subst h2
                    have hid := hst j (requireJob_ok hr)
                    exact ⟨fun x hx => by cases hx; exact hid, by simp⟩
              · split at h
                · -- with PID
                  simp only [Except.ok.injEq, Prod.mk.injEq] at h
                  obtain ⟨h1, h2, _⟩ := h
                  subst h1; subst h2
                  exact ⟨hst, by simp⟩
                · -- unrecognized line
                  simp only [Except.ok.injEq, Prod.mk.injEq] at h
                  obtain ⟨h1, h2, _⟩ := h
                  subst h1; subst h2
                  exact ⟨hst, by simp⟩

theorem parse_detail_lines_inv :
    ∀ (lines : List String) (st tj : Option JobInfo) out ws,
      parse_detail_lines st lines = Except.ok (tj, out, ws) → jobIdSet st →
      jobIdSet tj ∧ ∀ oj ∈ out, jobIdSet oj := by
  intro lines
  induction lines with
  | nil =>
    intro st tj out ws h hst
    unfold parse_detail_lines at h
    simp only [Except.ok.injEq, Prod.mk.injEq] at h
    obtain ⟨h1, h2, _⟩ := h
    subst h1; subst h2
    exact ⟨hst, by simp⟩
  | cons l rest ih =>
    intro st tj out ws h hst
    unfold parse_detail_lines at h
    cases hstep : detail_step st l with
    | error e => rw [hstep] at h; simp at h
    | ok p =>
      obtain ⟨tj1, em, ws1⟩ := p
      rw [hstep] at h
      simp only [] at h
      cases hrest : parse_detail_lines tj1 rest with
      | error e => rw [hrest] at h; simp at h
      | ok q =>
        obtain ⟨tj2, out2, ws2⟩ := q
        rw [hrest] at h
        simp only [Except.ok.injEq, Prod.mk.injEq] at h
        obtain ⟨h1, h2, _⟩ := h
        subst h1; subst h2
        obtain ⟨hi1, hi2⟩ := detail_step_inv hstep hst
        obtain ⟨hi3, hi4⟩ := ih tj1 tj2 out2 ws2 hrest hi1
        refine ⟨hi3, ?_⟩
        intro oj hm
        rcases List.mem_append.mp hm with hh | hh
        · exact hi2 oj hh
        · exact hi4 oj hh

theorem parse_detailed_inv {lines : List String} {out : List (Option JobInfo)}
    {ws : List Warning} (h : parse_detailed lines = Except.ok (out, ws)) :
    ∀ oj ∈ out, jobIdSet oj := by
  unfold parse_detailed at h
  cases hl : parse_detail_lines none lines with
  | error e => rw [hl] at h; simp at h
  | ok p =>
    obtain ⟨tj, out1, ws1⟩ := p
    rw [hl] at h
    simp only [Except.ok.injEq, Prod.mk.injEq] at h
    obtain ⟨h1, _⟩ := h
    subst h1
    obtain ⟨hi1, hi2⟩ := parse_detail_lines_inv lines none tj out1 ws1 hl
      (fun j hj => by cases hj)
    intro oj hm
    rcases List.mem_append.mp hm with hh | hh
    · exact hi2 oj hh
    · rcases List.mem_singleton.mp hh with rfl
      exact hi1

/-- Claim C3 amended: every record the job-list parser returns that is an
    actual record (not the possibly-`None` final element of the detailed
    branch) has a non-null `job_id`; in the tabular branch (separator row in
    line 1, 0-indexed) every returned element is moreover an actual record
    with both `job_id` and `state` non-null.  `state` may be absent only in
    the detailed branch, when a block carries no `status` line. -/
theorem C3_record_invariant_amended :
    ∀ (retval : Int) (stdout stderr : String) res,
      parse_joblist_output retval stdout stderr = Except.ok res →
      (∀ j : JobInfo, some j ∈ res.1 → j.job_id.isSome = true) ∧
      (∀ l1, (nonempty_lines stdout).get? 1 = some l1 → pyIn "=========" l1 = true →
        ∀ oj ∈ res.1, ∃ j, oj = some j ∧ j.job_id.isSome = true ∧ j.job_state.isSome = true) := by
  intro retval stdout stderr res h
  unfold parse_joblist_output at h
  split at h
  · simp at h
  · simp only [] at h
    cases hg : (nonempty_lines stdout).get? 1 with
    | none =>
      rw [hg] at h
      simp at h
    | some l1 =>
      rw [hg] at h
      simp only [] at h
      split at h
      · -- tabular branch
        unfold queue_branch at h
        split at h
        · cases hq : parse_queue_rows ((nonempty_lines stdout).drop 2) with
          | error e => rw [hq] at h; simp at h
          | ok q =>
            obtain ⟨js, ws2⟩ := q
            rw [hq] at h
            simp only [Except.ok.injEq] at h
            subst h
            have hgood := parse_queue_rows_good ((nonempty_lines stdout).drop 2) js ws2 hq
            constructor
            · intro j hm
              obtain ⟨j2, hj2, hid, _⟩ := hgood (some j) hm
              cases hj2
              exact hid
            · intro l1b hg2 hsep oj hm
              exact hgood oj hm
        · simp only [Except.ok.injEq] at h
          subst h
          exact ⟨fun j hm => by simp at hm, fun l1b hg2 hsep oj hm => by simp at hm⟩
      · split at h
        · -- detailed branch
          unfold detail_branch at h
          cases hd : parse_detailed (nonempty_lines stdout) with
          | error e => rw [hd] at h; simp at h
          | ok q =>
            obtain ⟨js, ws2⟩ := q
            rw [hd] at h
            simp only [Except.ok.injEq] at h
            subst h
            have hinv := parse_detailed_inv hd
            constructor
            · intro j hm
              exact hinv (some j) hm j rfl
            · intro l1b hg2 hsep oj hm
              cases hg2
              simp_all
        · -- neither layout
          simp only [Except.ok.injEq] at h
          subst h
          exact ⟨fun j hm => by simp at hm, fun l1b hg2 hsep oj hm => by simp at hm⟩

/-- Witness for the amended claim C3 at a concrete tabular input. -/
theorem C3_record_invariant_amended_witness :
    ({ job_id := some "1", title := some "t", job_state := some JobState.running,
       pipeline := some none, raw_data := some ["1", "t", "r"] : JobInfo }).job_id.isSome = true :=
  (C3_record_invariant_amended 0 "h\n=========\n1 t r" ""
      ([some { job_id := some "1", title := some "t", job_state := some JobState.running,
               pipeline := some none, raw_data := some ["1", "t", "r"] }], [])
      (by decide)).1 _ (by decide)

/-- Claim C4 counterexample: a tabular row with 2 fields makes the parse fail,
    but with a plain `IndexError` (reading `job[2]`, with only `KeyError`
    caught), not with the unexpected-column-count `ValueError` — that error is
    raised only for more than 4 fields. -/
theorem C4_tabular_row_counterexample :
    parse_joblist_output 0 "h\n=========\n1 t" "" = Except.error PyErr.indexError ∧
    ∀ m, PyErr.indexError ≠ PyErr.valueError m :=
  ⟨by decide, fun m h => by cases h⟩

theorem listGet_error {α : Type} {l : List α} {i : Nat} {e : PyErr}
    (h : listGet l i = Except.error e) : e = PyErr.indexError := by
  unfold listGet at h
  cases hg : l.get? i with
  | none => rw [hg] at h; cases h; rfl
  | some x => rw [hg] at h; cases h

theorem listGet_lt {α : Type} {l : List α} {i : Nat} (h : i < l.length) :
    listGet l i = Except.ok (l.get ⟨i, h⟩) := by
  unfold listGet
  rw [List.get?_eq_get h]

theorem parse_queue_row_short {line : String} (h : (pySplitWs line).length ≤ 2) :
    parse_queue_row line = Except.error PyErr.indexError := by
  have h2 : listGet (pySplitWs line) 2 = Except.error PyErr.indexError := by
    unfold listGet
    rw [List.get?_eq_none.mpr h]
  unfold parse_queue_row
  simp only []
  cases h0 : listGet (pySplitWs line) 0 with
  | error e => have he := listGet_error h0; subst he; rfl
  | ok j0 =>
    simp only []
    cases h1 : listGet (pySplitWs line) 1 with
    | error e => have he := listGet_error h1; subst he; rfl
    | ok j1 =>
      simp only []
      rw [h2]

theorem parse_queue_row_long {line : String} (h : 5 ≤ (pySplitWs line).length) :
    ∃ m, parse_queue_row line = Except.error (PyErr.valueError m) := by
  refine ⟨"More than 4 columns returned by ketchup status queue: " ++
    joinSep " " (pySplitWs line), ?_⟩
  unfold parse_queue_row
  simp only []
  rw [listGet_lt (show 0 < (pySplitWs line).length by omega)]
  simp only []
  rw [listGet_lt (show 1 < (pySplitWs line).length by omega)]
  simp only []
  rw [listGet_lt (show 2 < (pySplitWs line).length by omega)]
  simp only []
  rw [if_neg (by omega), if_neg (by omega)]

theorem parse_queue_rows_bad {rows : List String} {line : String}
    (hm : line ∈ rows) (hbad : ∃ e, parse_queue_row line = Except.error e) :
    ∃ e2, parse_queue_rows rows = Except.error e2 := by
  induction rows with
  | nil => simp at hm
  | cons r rest ih =>
    unfold parse_queue_rows
    cases hrow : parse_queue_row r with
    | error e => exact ⟨e, rfl⟩
    | ok p =>
      obtain ⟨j1, ws1⟩ := p
      rcases List.mem_cons.mp hm with hh | hh
      · subst hh
        obtain ⟨e, hb⟩ := hbad
        rw [hb] at hrow
        cases hrow
      · obtain ⟨e2, hr2⟩ := ih hh
        refine ⟨e2, ?_⟩
        simp only []
        rw [hr2]

/-- Claim C4 amended: a 4-column tabular row parses to the stated record; a
    tabular row with more than 4 whitespace fields aborts the whole parse with
    the unexpected-column-count `ValueError`; a row with fewer than 3 fields
    also aborts the whole parse, but with an `IndexError`; in either case a
    bad row anywhere in the tabular data makes the whole call fail. -/
theorem C4_tabular_row_amended :
    parse_joblist_output 0 "h\n=========\n123 myjob r pipelineA" "" =
      Except.ok ([some { job_id := some "123", title := some "myjob",
                         job_state := some JobState.running,
                         pipeline := some (some "pipelineA"),
                         raw_data := some ["123", "myjob", "r", "pipelineA"] }], []) ∧
    (∀ line, (pySplitWs line).length ≤ 2 →
       parse_queue_row line = Except.error PyErr.indexError) ∧
    (∀ line, 5 ≤ (pySplitWs line).length →
       ∃ m, parse_queue_row line = Except.error (PyErr.valueError m)) ∧
    (∀ stdout stderr line l1, (nonempty_lines stdout).get? 1 = some l1 →
       pyIn "=========" l1 = true → line ∈ (nonempty_lines stdout).drop 2 →
       ¬((pySplitWs line).length = 3 ∨ (pySplitWs line).length = 4) →
       ∃ e, parse_joblist_output 0 stdout stderr = Except.error e) := by
  refine ⟨by decide, fun line h => parse_queue_row_short h,
    fun line h => parse_queue_row_long h, ?_⟩
  intro stdout stderr line l1 hg hsep hm hbad
  have hlen : 2 < (nonempty_lines stdout).length := by
    by_contra hc
    push_neg at hc
    rw [List.drop_eq_nil_of_le hc] at hm
    simp at hm
  have hrow : ∃ e, parse_queue_row line = Except.error e := by
    rcases Nat.lt_or_ge (pySplitWs line).length 3 with hl | hl
    · exact ⟨PyErr.indexError, parse_queue_row_short (by omega)⟩
    · rcases Nat.lt_or_ge (pySplitWs line).length 5 with hl2 | hl2
      · exact absurd (by omega : (pySplitWs line).length = 3 ∨ (pySplitWs line).length = 4) hbad
      · obtain ⟨m, hmm⟩ := parse_queue_row_long hl2
        exact ⟨PyErr.valueError m, hmm⟩
  obtain ⟨e2, hrows⟩ := parse_queue_rows_bad hm hrow
  refine ⟨e2, ?_⟩
  unfold parse_joblist_output
  rw [if_neg (show ¬((0 : Int) ≠ 0) from fun hc => hc rfl)]
  simp only []
  rw [hg]
  simp only []
  rw [if_pos hsep]
  unfold queue_branch
  rw [if_pos hlen]
  rw [hrows]

/-- Witness for the amended claim C4: a 2-field row aborts with `IndexError`. -/
theorem C4_tabular_row_amended_witness :
    parse_queue_row "1 t" = Except.error PyErr.indexError :=
  C4_tabular_row_amended.2.1 "1 t" (by decide)

/-- Claim C5: in the detailed layout a `jobid` key closes the record being
    built (a truthy `this_job` is appended) and opens a fresh one holding only
    the new job id; the parser appends the last open record when the input
    ends; and the concrete two-block report yields exactly two records, the
    first closed before the second `jobid` line was processed. -/
theorem C5_detail_blocks :
    (∀ st raw_line v,
        ((strSplitChar (Char.ofNat 61) raw_line).map strTrim).get? 1 = some v →
        pyIn "jobid" (((strSplitChar (Char.ofNat 61) raw_line).map strTrim).headD "") = true →
        detail_step st raw_line =
          Except.ok (some (freshJob v), if optJobTruthy st then [st] else [], [])) ∧
    (∀ lines tj out ws, parse_detail_lines none lines = Except.ok (tj, out, ws) →
        parse_detailed lines = Except.ok (out ++ [tj], ws)) ∧
    parse_joblist_output 0 "jobid = 1\nstatus = r\njobid = 2\nstatus = c" "" =
      Except.ok ([some { job_id := some "1", job_state := some JobState.running },
                  some { job_id := some "2", job_state := some JobState.done }], []) := by
  refine ⟨?_, ?_, by decide⟩
  · intro st raw_line v hv hkey
    unfold detail_step
    simp only []
    rw [if_pos hkey]
    unfold listGet
    rw [hv]
  · intro lines tj out ws h
    unfold parse_detailed
    rw [h]

/-- Witness for claim C5: a concrete `jobid` line closes the previous record
    and opens a new one. -/
theorem C5_detail_blocks_witness :
    detail_step (some (freshJob "1")) "jobid = 2" =
      Except.ok (some (freshJob "2"),
        if optJobTruthy (some (freshJob "1")) then [some (freshJob "1")] else [], []) :=
  C5_detail_blocks.1 (some (freshJob "1")) "jobid = 2" "2" (by decide) (by decide)

/-- Claim C6 counterexample: the detailed parser does not split a line on the
    FIRST equals sign (it splits on every one and keeps the part between the
    first and the second: `jobid = 5=6` stores job id `5`, not `5=6`), and it
    does not dispatch keys by literal match against the fixed key set (the key
    `the jobname x`, which is not the literal `jobname`, still sets the
    title). -/
theorem C6_detail_keys_counterexample :
    (parse_joblist_output 0 "jobid = 5=6\nstatus = r" "" =
       Except.ok ([some { job_id := some "5", job_state := some JobState.running }], []) ∧
     firstEqVal "jobid = 5=6" = some "5=6" ∧ "5" ≠ "5=6") ∧
    (parse_joblist_output 0 "jobid = 1\nthe jobname x = t" "" =
       Except.ok ([some { job_id := some "1", title := some "t" }], []) ∧
     firstEqKey "the jobname x = t" = "the jobname x" ∧
     "the jobname x" ≠ "jobname") := by
  constructor
  · exact ⟨by decide, by decide, by decide⟩
  · exact ⟨by decide, by decide, by decide⟩

/-- Claim C6 amended: each detailed line is split at EVERY equals sign with
    all parts trimmed; the key (the part before the first equals sign) is
    dispatched by case-sensitive substring containment, tested in the fixed
    order jobid, jobname, status, submitted at, executed at, completed at,
    with pipeline, with PID; the value used is the part between the first and
    second equals signs; and a line whose key contains none of the eight
    literals is logged and skipped without failing the parse. -/
theorem C6_detail_keys_amended :
    (∀ st raw_line parts, parts = (strSplitChar (Char.ofNat 61) raw_line).map strTrim →
       pyIn "jobid" (parts.headD "") = false →
       pyIn "jobname" (parts.headD "") = false →
       pyIn "status" (parts.headD "") = false →
       pyIn "submitted at" (parts.headD "") = false →
       pyIn "executed at" (parts.headD "") = false →
       pyIn "completed at" (parts.headD "") = false →
       pyIn "with pipeline" (parts.headD "") = false →
       pyIn "with PID" (parts.headD "") = false →
       detail_step st raw_line = Except.ok (st, [], [Warning.unrecognizedLine parts])) ∧
    detail_step (some (freshJob "1")) "the jobname x = t" =
      Except.ok (some { job_id := some "1", title := some "t" }, [], []) ∧
    detail_step none "jobid = 5=6" = Except.ok (some (freshJob "5"), [], []) := by
  refine ⟨?_, by decide, by decide⟩
  intro st raw_line parts hp h1 h2 h3 h4 h5 h6 h7 h8
  subst hp
  unfold detail_step
  simp only []
  rw [if_neg (by rw [h1]; simp), if_neg (by rw [h2]; simp), if_neg (by rw [h3]; simp),
    if_neg (by rw [h4]; simp), if_neg (by rw [h5]; simp), if_neg (by rw [h6]; simp),
    if_neg (by rw [h7]; simp), if_neg (by rw [h8]; simp)]

/-- Witness for the amended claim C6: the unrecognized line `foo - bar` is
    skipped with a warning. -/
theorem C6_detail_keys_amended_witness :
    detail_step (some (freshJob "1")) "foo - bar" =
      Except.ok (some (freshJob "1"), [], [Warning.unrecognizedLine ["foo - bar"]]) :=
  C6_detail_keys_amended.1 (some (freshJob "1")) "foo - bar" ["foo - bar"]
    (by decide) (by decide) (by decide) (by decide) (by decide) (by decide)
    (by decide) (by decide) (by decide)

theorem find_submit_id_first :
    ∀ (pre : List String) (line : String) (rest : List String) (d : String),
      (∀ l ∈ pre, submittedCapture (strTrim l) = none) →
      submittedCapture (strTrim line) = some d →
      find_submit_id (pre ++ line :: rest) = some d := by
  intro pre
  induction pre with
  | nil =>
    intro line rest d hpre hline
    rw [List.nil_append]
    simp only [find_submit_id]
    rw [hline]
  | cons p ps ih =>
    intro line rest d hpre hline
    rw [List.cons_append]
    simp only [find_submit_id]
    rw [hpre p (List.mem_cons_self p ps)]
    exact ih line rest d (fun l hl => hpre l (List.mem_cons_of_mem p hl)) hline

theorem find_submit_id_none :
    ∀ ls : List String, (∀ l ∈ ls, submittedCapture (strTrim l) = none) →
      find_submit_id ls = none := by
  intro ls
  induction ls with
  | nil => intro h; rfl
  | cons p ps ih =>
    intro h
    simp only [find_submit_id]
    rw [h p (List.mem_cons_self p ps)]
    exact ih (fun l hl => h l (List.mem_cons_of_mem p hl))

/-- Claim C7: the submission-id extractor raises a scheduler error on every
    non-zero retcode; with retcode 0 it scans stdout line by line in order and
    returns the digits captured by the first line matching the submit pattern
    (the stated example yields `4821`); and when no line matches it raises a
    scheduler error even with retcode 0. -/
theorem C7_submit_extractor :
    (∀ (retval : Int) (stdout stderr : String), retval ≠ 0 →
       ∃ m, parse_submit_output retval stdout stderr =
         Except.error (PyErr.schedulerError m)) ∧
    parse_submit_output 0 "Submitting...\njobid = 4821\n" "" = Except.ok "4821" ∧
    (∀ (stdout stderr : String) pre line rest d,
       strSplitChar (Char.ofNat 10) stdout = pre ++ line :: rest →
       (∀ l ∈ pre, submittedCapture (strTrim l) = none) →
       submittedCapture (strTrim line) = some d →
       parse_submit_output 0 stdout stderr = Except.ok d) ∧
    (∀ stdout stderr : String,
       (∀ l ∈ strSplitChar (Char.ofNat 10) stdout, submittedCapture (strTrim l) = none) →
       ∃ m, parse_submit_output 0 stdout stderr =
         Except.error (PyErr.schedulerError m)) := by
  refine ⟨?_, by decide, ?_, ?_⟩
  · intro retval stdout stderr h
    refine ⟨"Error during submission, retval=" ++ toString retval ++ "; stdout=" ++ stdout ++
      "; stderr=" ++ stderr, ?_⟩
    unfold parse_submit_output
    rw [if_pos h]
  · intro stdout stderr pre line rest d hsplit hpre hline
    unfold parse_submit_output
    rw [if_neg (show ¬((0 : Int) ≠ 0) from fun hc => hc rfl)]
    rw [hsplit, find_submit_id_first pre line rest d hpre hline]
  · intro stdout stderr hnone
    refine ⟨"Error during submission, could not retrieve the jobID from ketchup output; see log for more info.", ?_⟩
    unfold parse_submit_output
    rw [if_neg (show ¬((0 : Int) ≠ 0) from fun hc => hc rfl)]
    rw [find_submit_id_none (strSplitChar (Char.ofNat 10) stdout) hnone]

/-- Witness for claim C7: a non-zero retcode raises. -/
theorem C7_submit_extractor_witness :
    ∃ m, parse_submit_output 1 "jobid = 4821" "" =
      Except.error (PyErr.schedulerError m) :=
  C7_submit_extractor.1 1 "jobid = 4821" "" (by decide)

/-- Claim C8 counterexample: the claim demands an input-type error for every
    non-string, non-iterable `jobs` argument and n joined sub-commands for an
    iterable of n ids, but a FALSY non-string, non-iterable value (such as
    `0`) and the empty iterable both fall into the `if jobs:` else-branch and
    yield the entire-queue command without raising. -/
theorem C8_joblist_command_counterexample :
    get_joblist_command (PyJobs.other false) none = Except.ok "ketchup status queue" ∧
    get_joblist_command (PyJobs.list []) none = Except.ok "ketchup status queue" := by
  constructor
  · decide
  · decide

/-- Claim C8 amended: a truthy user filter always raises feature-unavailable;
    falsy `jobs` (absent, empty string, empty iterable, or any falsy scalar)
    yields the list-entire-queue command; a non-empty id string yields one
    single-job status command; a non-empty iterable of n ids yields exactly n
    single-job status sub-commands joined by the success-only conjunction in
    input order; and a TRUTHY non-string, non-iterable `jobs` argument raises
    an input-type error. -/
theorem C8_joblist_command_amended :
    (∀ jobs user, pyStrOptTruthy user = true →
       get_joblist_command jobs user =
         Except.error (PyErr.featureNotAvailable "Cannot query by user")) ∧
    (∀ jobs user, pyStrOptTruthy user = false → pyJobsTruthy jobs = false →
       get_joblist_command jobs user = Except.ok (KETCHUP ++ " status queue")) ∧
    (∀ s user, pyStrOptTruthy user = false → s ≠ "" →
       get_joblist_command (PyJobs.str s) user =
         Except.ok (KETCHUP ++ " status " ++ escape_for_bash s)) ∧
    (∀ l user, pyStrOptTruthy user = false → l ≠ [] →
       get_joblist_command (PyJobs.list l) user =
         Except.ok (joinSep " && " (l.map (fun j => KETCHUP ++ " status " ++ j))) ∧
       (l.map (fun j => KETCHUP ++ " status " ++ j)).length = l.length) ∧
    (∀ user, pyStrOptTruthy user = false →
       ∃ m, get_joblist_command (PyJobs.other true) user =
         Except.error (PyErr.typeError m)) := by
  refine ⟨?_, ?_, ?_, ?_, ?_⟩
  · intro jobs user hu
    unfold get_joblist_command
    rw [if_pos hu]
  · intro jobs user hu hj
    unfold get_joblist_command
    rw [if_neg (by rw [hu]; simp), if_neg (by rw [hj]; simp)]
  · intro s user hu hs
    unfold get_joblist_command
    rw [if_neg (by rw [hu]; simp), if_pos (show pyJobsTruthy (PyJobs.str s) = true by
      unfold pyJobsTruthy; simp [hs])]
  · intro l user hu hl
    constructor
    · unfold get_joblist_command
      rw [if_neg (by rw [hu]; simp), if_pos (show pyJobsTruthy (PyJobs.list l) = true by
        unfold pyJobsTruthy; simp [hl])]
    · rw [List.length_map]
  · intro user hu
    refine ⟨"If provided, the " ++ String.mk [squoteC] ++ "jobs" ++ String.mk [squoteC] ++
      " variable must be a string or an iterable of strings", ?_⟩
    unfold get_joblist_command
    rw [if_neg (by rw [hu]; simp), if_pos (show pyJobsTruthy (PyJobs.other true) = true by rfl)]

/-- Witness for the amended claim C8: three ids produce three sub-commands
    joined by the success-only conjunction, in input order. -/
theorem C8_joblist_command_amended_witness :
    get_joblist_command (PyJobs.list ["a", "b", "c"]) none =
      Except.ok (joinSep " && " (["a", "b", "c"].map (fun j => KETCHUP ++ " status " ++ j))) ∧
    (["a", "b", "c"].map (fun j => KETCHUP ++ " status " ++ j)).length = 3 :=
  C8_joblist_command_amended.2.2.2.1 ["a", "b", "c"] none (by decide) (by decide)

theorem prefixIfNeeded_head :
    ∀ l : List Char, ∃ c cs, prefixIfNeeded l = c :: cs ∧ isAsciiAlphaNum c = true := by
  intro l
  cases l with
  | nil => exact ⟨'j', [], rfl, by decide⟩
  | cons c cs =>
    by_cases h : isAsciiAlphaNum c = true
    · exact ⟨c, cs, by simp only [prefixIfNeeded]; rw [if_pos h], h⟩
    · exact ⟨'j', c :: cs, by simp only [prefixIfNeeded]; rw [if_neg h], by decide⟩

theorem prefixIfNeeded_all {l : List Char} (h : ∀ x ∈ l, isTitleChar x = true) :
    ∀ x ∈ prefixIfNeeded l, isTitleChar x = true := by
  cases l with
  | nil =>
    intro x hx
    cases List.mem_singleton.mp hx
    decide
  | cons c cs =>
    intro x hx
    simp only [prefixIfNeeded] at hx
    by_cases hc : isAsciiAlphaNum c = true
    · rw [if_pos hc] at hx
      exact h x hx
    · rw [if_neg hc] at hx
      rcases List.mem_cons.mp hx with hh | hh
      · subst hh; decide
      · exact h x hh

theorem sanitize_title_chars_spec (name : String) :
    (sanitize_title_chars name).length ≤ 128 ∧
    (∀ x ∈ sanitize_title_chars name, isTitleChar x = true) ∧
    ∃ c cs, sanitize_title_chars name = c :: cs ∧ isAsciiAlphaNum c = true := by
  refine ⟨?_, ?_, ?_⟩
  · unfold sanitize_title_chars
    rw [List.length_take]
    exact Nat.min_le_left _ _
  · intro x hx
    unfold sanitize_title_chars at hx
    have hx2 := List.take_subset _ _ hx
    exact prefixIfNeeded_all (fun y hy => List.of_mem_filter hy) x hx2
  · obtain ⟨c, cs, hpc, hc⟩ := prefixIfNeeded_head (name.toList.filter isTitleChar)
    refine ⟨c, cs.take 127, ?_, hc⟩
    unfold sanitize_title_chars
    rw [hpc, show (128 : Nat) = 127 + 1 from rfl, List.take_succ_cons]

/-- Claim C9: when the template names the job, the header is the
    dialect-appropriate variable assignment (POSIX `JOB_TITLE=` or
    powershell `$JOB_TITLE=`) of the sanitized title, which contains only
    letters, digits, dot, dash and underscore, starts with a letter or digit
    (the fixed letter `j` is prefixed otherwise), and is at most 128
    characters long; when the template has no (truthy) job name the header is
    empty. -/
theorem C9_script_header :
    (∀ (tmpl : JobTemplate) (name : String), tmpl.job_name = some name → name ≠ "" →
       get_submit_script_header tmpl =
         (if tmpl.shell_type = "powershell" then "$JOB_TITLE=" else "JOB_TITLE=") ++
           String.mk [squoteC] ++ sanitize_job_title name ++ String.mk [squoteC] ∧
       (sanitize_title_chars name).length ≤ 128 ∧
       (∀ x ∈ sanitize_title_chars name, isTitleChar x = true) ∧
       (∃ c cs, sanitize_title_chars name = c :: cs ∧ isAsciiAlphaNum c = true)) ∧
    (∀ tmpl : JobTemplate, pyStrOptTruthy tmpl.job_name = false →
       get_submit_script_header tmpl = "") := by
  constructor
  · intro tmpl name hname hne
    obtain ⟨h1, h2, h3⟩ := sanitize_title_chars_spec name
    refine ⟨?_, h1, h2, h3⟩
    unfold get_submit_script_header
    rw [if_pos (show pyStrOptTruthy tmpl.job_name = true by
      rw [hname]; simp [pyStrOptTruthy, hne])]
    simp only [hname, Option.getD_some]
    by_cases hps : tmpl.shell_type = "powershell"
    · rw [if_pos hps, if_pos hps]
    · rw [if_neg hps, if_neg hps]
  · intro tmpl h
    unfold get_submit_script_header
    rw [if_neg (by rw [h]; simp)]

/-- Witness for claim C9 at a concrete job name containing forbidden
    characters. -/
theorem C9_script_header_witness :
    get_submit_script_header ⟨"bash", some "my job!!"⟩ =
      (if ("bash" : String) = "powershell" then "$JOB_TITLE=" else "JOB_TITLE=") ++
        String.mk [squoteC] ++ sanitize_job_title "my job!!" ++ String.mk [squoteC] :=
  (C9_script_header.1 ⟨"bash", some "my job!!"⟩ "my job!!" rfl (by decide)).1
